import Mathlib

/-!
Verification of the pipeline-service repository (flat-file backend, filter
engine, pagination, summary aggregation, artifact streaming) against its
natural-language specification.

Shallow embedding conventions:
* Timestamps (`datetime` values) are modelled as `Nat` (`Time`): only their
  total order and equality are used by the code under verification.
* Python `float` (`elapsed_seconds` and the averages) is modelled as `Rat`;
  every concrete value exercised by the claims is exactly representable.
* Python `Optional[T]` is `Option T`; Python truthiness of strings is
  `s ≠ ""`, of `Optional` values `isSome` composed with the inner truthiness,
  and `datetime` objects are always truthy.
* Fallible code paths (uncaught Python exceptions) are `Except PyErr`.
-/

abbrev Time := Nat

/-- The record model, embedded from `src/models.py` (`class PipelineInfo`).
Note that the source model has NO `archived_file` field, although
`src/main.py` and the tests refer to one; see `ArchivedRecord` below. -/
structure PipelineInfo where
  start_local : Time
  end_local : Time
  start_utc : Time
  end_utc : Time
  elapsed_seconds : Rat
  elapsed_human : String
  output_file : String
  rowcount : Int
  log_file : String
  pid : Int
  date_code : String
  pipeline_name : Option String
  script_name : Option String
  pipeline_type : Option String
  environment : Option String
deriving DecidableEq, Repr

/-- The optional filter criteria accepted by both backends
(`start_utc`, `end_utc`, `min_rowcount`, `max_rowcount`, and the four
string-equality criteria). -/
structure Filters where
  start_utc : Option Time
  end_utc : Option Time
  min_rowcount : Option Int
  max_rowcount : Option Int
  pipeline_name : Option String
  script_name : Option String
  pipeline_type : Option String
  environment : Option String
deriving DecidableEq, Repr

/-- A `Filters` value with every criterion absent. -/
def noFilters : Filters :=
  { start_utc := none, end_utc := none, min_rowcount := none,
    max_rowcount := none, pipeline_name := none, script_name := none,
    pipeline_type := none, environment := none }

/-- One string-equality conjunct of the flat-file predicate:
`(not crit or rec.field == crit)` where `crit : Optional[str]` is falsy when
`None` or `""`, and `None == s` is `False` in Python. -/
def pyStrFilter : Option String → Option String → Bool
  | none, _ => true
  | some s, rf =>
    if s = "" then true
    else match rf with
      | none => false
      | some v => decide (v = s)

/-- The conjunctive in-memory predicate of
`JsonlPipelineRepository._apply_filters` (src/repository.py lines 81-93):
a record is kept iff every present criterion is satisfied.  `datetime`
criteria are checked with `not start_utc` (falsy iff `None`), rowcount
criteria with `is None`, string criteria with Python truthiness. -/
def matchesFilters (f : Filters) (r : PipelineInfo) : Bool :=
  (match f.start_utc with | none => true | some t => decide (t ≤ r.start_utc))
  && (match f.end_utc with | none => true | some t => decide (r.end_utc ≤ t))
  && (match f.min_rowcount with | none => true | some n => decide (n ≤ r.rowcount))
  && (match f.max_rowcount with | none => true | some n => decide (r.rowcount ≤ n))
  && pyStrFilter f.pipeline_name r.pipeline_name
  && pyStrFilter f.script_name r.script_name
  && pyStrFilter f.pipeline_type r.pipeline_type
  && pyStrFilter f.environment r.environment

/-- `_apply_filters` itself: the list comprehension keeping matching records. -/
def apply_filters (f : Filters) (data : List PipelineInfo) : List PipelineInfo :=
  data.filter (matchesFilters f)

/-- One emitted WHERE-clause condition of
`OraclePipelineRepository._build_where` (src/repository.py lines 205-240),
as a field/operator/value triple.  Column-name mapping only renames columns
and does not change the predicate, so it is not modelled. -/
inductive WhereCond where
  | startGe (t : Time)
  | endLe (t : Time)
  | rowGe (n : Int)
  | rowLe (n : Int)
  | nameEq (s : String)
  | scriptEq (s : String)
  | typeEq (s : String)
  | envEq (s : String)
deriving DecidableEq, Repr

/-- Emission guard for a string criterion: `if pipeline_name:` appends one
condition, so a `None` or `""` criterion emits nothing. -/
def strCond (o : Option String) (mk : String → WhereCond) : List WhereCond :=
  match o with
  | none => []
  | some s => if s = "" then [] else [mk s]

/-- `_build_where`: the sequential `where.append(...)` calls produce this
list of conditions, in source order. -/
def build_where (f : Filters) : List WhereCond :=
  (match f.start_utc with | none => [] | some t => [WhereCond.startGe t])
  ++ (match f.end_utc with | none => [] | some t => [WhereCond.endLe t])
  ++ (match f.min_rowcount with | none => [] | some n => [WhereCond.rowGe n])
  ++ (match f.max_rowcount with | none => [] | some n => [WhereCond.rowLe n])
  ++ strCond f.pipeline_name WhereCond.nameEq
  ++ strCond f.script_name WhereCond.scriptEq
  ++ strCond f.pipeline_type WhereCond.typeEq
  ++ strCond f.environment WhereCond.envEq

/-- SQL equality `col = :v` on a nullable string column: comparing `NULL`
with a value is not true, so a `NULL` field never satisfies the condition. -/
def sqlStrEq : Option String → String → Bool
  | none, _ => false
  | some v, s => decide (v = s)

/-- Truth value of a single emitted WHERE condition on a record. -/
def evalCond (r : PipelineInfo) : WhereCond → Bool
  | .startGe t => decide (t ≤ r.start_utc)
  | .endLe t => decide (r.end_utc ≤ t)
  | .rowGe n => decide (n ≤ r.rowcount)
  | .rowLe n => decide (r.rowcount ≤ n)
  | .nameEq s => sqlStrEq r.pipeline_name s
  | .scriptEq s => sqlStrEq r.script_name s
  | .typeEq s => sqlStrEq r.pipeline_type s
  | .envEq s => sqlStrEq r.environment s

/-- The translated WHERE predicate: the conjunction (`" AND ".join`) of the
emitted conditions. -/
def evalWhere (r : PipelineInfo) (conds : List WhereCond) : Bool :=
  conds.all (evalCond r)

lemma evalWhere_append (r : PipelineInfo) (l1 l2 : List WhereCond) :
    evalWhere r (l1 ++ l2) = (evalWhere r l1 && evalWhere r l2) := by
  simp [evalWhere, List.all_append]

lemma evalWhere_strCond (r : PipelineInfo) (o rf : Option String)
    (mk : String → WhereCond) (hmk : ∀ s, evalCond r (mk s) = sqlStrEq rf s) :
    evalWhere r (strCond o mk) = pyStrFilter o rf := by
  cases o with
  | none => simp [strCond, pyStrFilter, evalWhere]
  | some s =>
    by_cases hs : s = "" <;>
      cases rf <;>
        simp [strCond, pyStrFilter, evalWhere, hs, hmk, sqlStrEq]

/-- C1: for every record and every combination of present/absent filter
criteria, the flat-file in-memory predicate and the conjunction of the
conditions emitted by the relational WHERE builder yield the same truth
value; consequently a record is included by `_apply_filters` iff it is in
the data and satisfies the translated WHERE predicate. -/
theorem c1_filter_refinement_equivalence :
    ∀ (f : Filters) (r : PipelineInfo) (data : List PipelineInfo),
      matchesFilters f r = evalWhere r (build_where f) ∧
      (r ∈ apply_filters f data ↔
        r ∈ data ∧ evalWhere r (build_where f) = true) := by
  intro f r data
  have hmain : matchesFilters f r = evalWhere r (build_where f) := by
    rw [matchesFilters, build_where]
    rw [evalWhere_append, evalWhere_append, evalWhere_append,
      evalWhere_append, evalWhere_append, evalWhere_append, evalWhere_append]
    rw [evalWhere_strCond r f.pipeline_name r.pipeline_name WhereCond.nameEq
      (fun s => rfl)]
    rw [evalWhere_strCond r f.script_name r.script_name WhereCond.scriptEq
      (fun s => rfl)]
    rw [evalWhere_strCond r f.pipeline_type r.pipeline_type WhereCond.typeEq
      (fun s => rfl)]
    rw [evalWhere_strCond r f.environment r.environment WhereCond.envEq
      (fun s => rfl)]
    cases f.start_utc <;> cases f.end_utc <;> cases f.min_rowcount <;>
      cases f.max_rowcount <;> simp [evalWhere, evalCond]
  refine ⟨hmain, ?_⟩
  rw [apply_filters, List.mem_filter, hmain]

/-- C10: an empty-string value for any of the four string criteria is
treated exactly like an absent criterion, both by the flat-file filter and
by the relational WHERE builder (which emits no condition for it). -/
theorem c10_empty_string_criterion_absent :
    ∀ (f : Filters) (data : List PipelineInfo),
      apply_filters { f with pipeline_name := some "" } data
          = apply_filters { f with pipeline_name := none } data ∧
      apply_filters { f with script_name := some "" } data
          = apply_filters { f with script_name := none } data ∧
      apply_filters { f with pipeline_type := some "" } data
          = apply_filters { f with pipeline_type := none } data ∧
      apply_filters { f with environment := some "" } data
          = apply_filters { f with environment := none } data ∧
      build_where { f with pipeline_name := some "" }
          = build_where { f with pipeline_name := none } ∧
      build_where { f with script_name := some "" }
          = build_where { f with script_name := none } ∧
      build_where { f with pipeline_type := some "" }
          = build_where { f with pipeline_type := none } ∧
      build_where { f with environment := some "" }
          = build_where { f with environment := none } := by
  intro f data
  refine ⟨?_, ?_, ?_, ?_, ?_, ?_, ?_, ?_⟩ <;>
  · first
    | (apply congrArg (fun p => List.filter p data)
       funext r
       simp [matchesFilters, pyStrFilter])
    | simp [build_where, strCond]

/-! ## The JSONL store: JSON values, serialization, parsing, `_read_all` -/

/-- A JSON value as stored on one line of the flat file.  `timeStr t` is an
ISO-8601 string rendering of the datetime `t` (what `datetime.isoformat`
writes and what Pydantic parses back to the same datetime); plain strings
that happen to parse as datetimes, nested arrays/objects, and booleans are
not modelled (no claim exercises them). -/
inductive JValue where
  | null
  | str (s : String)
  | int (i : Int)
  | rat (q : Rat)
  | timeStr (t : Time)
deriving DecidableEq, Repr

/-- A parsed JSON object: key/value pairs.  `json.loads` keeps the last of
duplicate keys; the objects produced here have unique keys, so lookup of
the first occurrence is faithful. -/
abbrev JsonObj := List (String × JValue)

def jLookup (o : JsonObj) (k : String) : Option JValue :=
  (o.find? (fun p => p.1 == k)).map (fun p => p.2)

/-- Python truthiness of a JSON value (`if output_file:` etc.). -/
def jTruthy : JValue → Bool
  | .null => false
  | .str s => decide (s ≠ "")
  | .int i => decide (i ≠ 0)
  | .rat q => decide (q ≠ 0)
  | .timeStr _ => true

/-- Substring search on character lists (kernel-reducible replacement for
the `Substring`-based core functions). -/
def listContainsSub (l pat : List Char) : Bool :=
  if pat.isPrefixOf l then true
  else match l with
    | [] => false
    | _ :: xs => listContainsSub xs pat

/-- Python `pat in s` substring test. -/
def strContains (s pat : String) : Bool :=
  listContainsSub s.data pat.data

/-- Python `s.split(sep)` for a single-character separator (every `split`
in the source uses one): `""` splits to `[""]`, separators at the ends
produce empty components. -/
def splitOnChar (c : Char) : List Char → List (List Char)
  | [] => [[]]
  | x :: xs =>
    let r := splitOnChar c xs
    if x = c then [] :: r
    else
      match r with
      | [] => [[x]]
      | h :: t => (x :: h) :: t

def strSplitOn (s : String) (c : Char) : List String :=
  (splitOnChar c s.data).map (fun l => String.mk l)

/-- Python `s.startswith(pre)`. -/
def strStartsWith (s pre : String) : Bool :=
  pre.data.isPrefixOf s.data

/-- Python `s.endswith(suf)`. -/
def strEndsWith (s suf : String) : Bool :=
  suf.data.isSuffixOf s.data

/-- Python `s[:-n]` for `n ≥ 1`: drop the last `n` characters (empty when
`n` exceeds the length). -/
def strDropRight (s : String) (n : Nat) : String :=
  String.mk (s.data.take (s.data.length - n))

/-- Uncaught Python exception species raised inside `_read_all`'s loop:
`except (json.JSONDecodeError, ValueError)` does not catch `TypeError` (or
`AttributeError`), so such an error aborts the whole read. -/
inductive PyErr where
  | typeError
deriving DecidableEq, Repr

/-- One `if v and pat in v:` step of `_infer_pipeline_name`
(src/repository.py lines 63 and 73): a falsy value skips the branch, a
truthy string is tested for the substring, and a truthy non-string raises
`TypeError` (Python `in` on an `int`/`float` is not iterable).  Returns the
string when the branch is taken. -/
def pyStrTest (v : JValue) (pat : String) : Except PyErr (Option String) :=
  match v with
  | .null => .ok none
  | .str s =>
    if s = "" then .ok none
    else if strContains s pat then .ok (some s) else .ok none
  | .int i => if i = 0 then .ok none else .error .typeError
  | .rat q => if q = 0 then .ok none else .error .typeError
  | .timeStr t =>
    let s := toString t
    if strContains s pat then .ok (some s) else .ok none

/-- The scan of `output_file.split('/')` looking for a segment equal to
`pipeline` whose successor does not start with `output-`
(src/repository.py lines 65-70); the loop keeps scanning otherwise. -/
def scanPipeline : List String → Option String
  | p :: next :: rest =>
    if p = "pipeline" && !(strStartsWith next "output-") then some next
    else scanPipeline (next :: rest)
  | _ => none

/-- `JsonlPipelineRepository._infer_pipeline_name` (src/repository.py lines
57-79): infer a pipeline name from `output_file` / `log_file` for records
predating the `pipeline_name` field; falls back to the literal string
`unknown`.  May raise `TypeError` when a truthy non-string sits in
`output_file` or `log_file`. -/
def infer_pipeline_name (o : JsonObj) : Except PyErr String := do
  let ofv := (jLookup o "output_file").getD (JValue.str "")
  let lfv := (jLookup o "log_file").getD (JValue.str "")
  let r1 ← pyStrTest ofv "/pipeline/"
  match r1 with
  | some s =>
    match scanPipeline (strSplitOn s '/') with
    | some name => return name
    | none => pure ()
  | none => pure ()
  let r2 ← pyStrTest lfv "/logs/"
  match r2 with
  | some s =>
    let filename := (strSplitOn s '/').getLastD ""
    if strContains filename "-" then
      return (strSplitOn filename '-').headD ""
    else
      pure ()
  | none => pure ()
  return "unknown"

/-- Pydantic validation of a required datetime field: an ISO datetime
string parses back to the datetime it renders.  (Pydantic would also accept
a numeric epoch; no claim exercises that coercion and it is not modelled.) -/
def jTime : Option JValue → Option Time
  | some (.timeStr t) => some t
  | _ => none

/-- Pydantic validation of a required `str` field (lax mode does not coerce
numbers to strings). -/
def jStr : Option JValue → Option String
  | some (.str s) => some s
  | _ => none

/-- Pydantic validation of a required `int` field (lax mode accepts a float
with integral value). -/
def jInt : Option JValue → Option Int
  | some (.int i) => some i
  | some (.rat q) => if q.den = 1 then some q.num else none
  | _ => none

/-- Pydantic validation of a required `float` field (accepts ints). -/
def jFloat : Option JValue → Option Rat
  | some (.rat q) => some q
  | some (.int i) => some (i : Rat)
  | _ => none

/-- Pydantic validation of an `Optional[str] = None` field: an absent key
or an explicit `null` give `None`. -/
def jOptStr : Option JValue → Option (Option String)
  | none => some none
  | some .null => some none
  | some (.str s) => some (some s)
  | some _ => none

/-- `PipelineInfo(**record_data)`: validate a JSON object into a record;
`none` models a Pydantic `ValidationError` (a subclass of `ValueError`,
which `_read_all` catches and skips). -/
def mkPipelineInfo (o : JsonObj) : Option PipelineInfo := do
  let sl ← jTime (jLookup o "start_local")
  let el ← jTime (jLookup o "end_local")
  let su ← jTime (jLookup o "start_utc")
  let eu ← jTime (jLookup o "end_utc")
  let es ← jFloat (jLookup o "elapsed_seconds")
  let eh ← jStr (jLookup o "elapsed_human")
  let outf ← jStr (jLookup o "output_file")
  let rc ← jInt (jLookup o "rowcount")
  let lf ← jStr (jLookup o "log_file")
  let pid ← jInt (jLookup o "pid")
  let dc ← jStr (jLookup o "date_code")
  let pn ← jOptStr (jLookup o "pipeline_name")
  let sn ← jOptStr (jLookup o "script_name")
  let pt ← jOptStr (jLookup o "pipeline_type")
  let env ← jOptStr (jLookup o "environment")
  pure { start_local := sl, end_local := el, start_utc := su, end_utc := eu,
         elapsed_seconds := es, elapsed_human := eh, output_file := outf,
         rowcount := rc, log_file := lf, pid := pid, date_code := dc,
         pipeline_name := pn, script_name := sn, pipeline_type := pt,
         environment := env }

def jOfOptStr : Option String → JValue
  | none => JValue.null
  | some s => JValue.str s

/-- `record.model_dump()` followed by datetime-to-ISO conversion, i.e. the
object that `insert_pipeline_info` serializes onto one line
(src/repository.py lines 155-167).  Note `model_dump` emits the
`pipeline_name` key even when its value is `None`. -/
def serialize_record (r : PipelineInfo) : JsonObj :=
  [("start_local", JValue.timeStr r.start_local),
   ("end_local", JValue.timeStr r.end_local),
   ("start_utc", JValue.timeStr r.start_utc),
   ("end_utc", JValue.timeStr r.end_utc),
   ("elapsed_seconds", JValue.rat r.elapsed_seconds),
   ("elapsed_human", JValue.str r.elapsed_human),
   ("output_file", JValue.str r.output_file),
   ("rowcount", JValue.int r.rowcount),
   ("log_file", JValue.str r.log_file),
   ("pid", JValue.int r.pid),
   ("date_code", JValue.str r.date_code),
   ("pipeline_name", jOfOptStr r.pipeline_name),
   ("script_name", jOfOptStr r.script_name),
   ("pipeline_type", jOfOptStr r.pipeline_type),
   ("environment", jOfOptStr r.environment)]

/-- One raw line of the flat file, as `_read_all` classifies it. -/
inductive Line where
  /-- Blank after `strip()`: skipped before parsing. -/
  | blank
  /-- Fails `json.loads` with `JSONDecodeError`: caught and skipped. -/
  | badJson
  /-- Valid JSON that is not an object (a scalar, string or array): the
  `'pipeline_name' not in record_data` / `record_data.get` /
  `PipelineInfo(**record_data)` steps raise `TypeError` or
  `AttributeError`, which the `except` clause does not catch. -/
  | nonObjJson
  /-- A JSON object. -/
  | obj (o : JsonObj)
deriving DecidableEq, Repr

/-- Processing of one JSON-object line inside `_read_all`'s `try` block
(src/repository.py lines 46-51): back-fill `pipeline_name` by inference
when the key is absent, then validate; a validation failure is caught and
skipped (`.ok none`), while an inference `TypeError` propagates. -/
def parseObj (o : JsonObj) : Except PyErr (Option PipelineInfo) :=
  if (jLookup o "pipeline_name").isSome then .ok (mkPipelineInfo o)
  else do
    let n ← infer_pipeline_name o
    .ok (mkPipelineInfo (o ++ [("pipeline_name", JValue.str n)]))

/-- The fate of one line in `_read_all`'s loop. -/
def parseLine : Line → Except PyErr (Option PipelineInfo)
  | .blank => .ok none
  | .badJson => .ok none
  | .nonObjJson => .error .typeError
  | .obj o => parseObj o

/-- The loop of `_read_all` over the file's lines: skipped lines contribute
nothing, parsed records are accumulated in order, and an uncaught error
aborts the read. -/
def read_all_lines : List Line → Except PyErr (List PipelineInfo)
  | [] => .ok []
  | l :: rest =>
    match parseLine l with
    | .error e => .error e
    | .ok none => read_all_lines rest
    | .ok (some r) => (read_all_lines rest).map (fun rs => r :: rs)

/-- The backing store state: `none` models a nonexistent file. -/
abbrev FileState := Option (List Line)

/-- `JsonlPipelineRepository._read_all` (src/repository.py lines 35-55):
a nonexistent file yields the empty list (lines 36-37), otherwise every
line is processed in order. -/
def read_all : FileState → Except PyErr (List PipelineInfo)
  | none => .ok []
  | some lines => read_all_lines lines

/-- `JsonlPipelineRepository.insert_pipeline_info` (src/repository.py lines
148-169): create the file if needed and append one serialized line. -/
def insert_pipeline_info (fs : FileState) (r : PipelineInfo) : FileState :=
  some ((fs.getD []) ++ [Line.obj (serialize_record r)])

lemma mkPipelineInfo_serialize (r : PipelineInfo) :
    mkPipelineInfo (serialize_record r) = some r := by
  rcases r with ⟨sl, el, su, eu, es, eh, outf, rc, lf, pid, dc, pn, sn, pt, env⟩
  cases pn <;> cases sn <;> cases pt <;> cases env <;> rfl

/-! ## Sorting, query, count and lookup -/

/-- Stable insertion step for a descending sort by a `Nat` key: the new
element goes before the first element whose key is not greater, so elements
with equal keys keep their original relative order (Python `list.sort` with
`reverse=True` is stable). -/
def insertDescBy (key : α → Time) (a : α) : List α → List α
  | [] => [a]
  | x :: xs =>
    if key a < key x then x :: insertDescBy key a xs else a :: x :: xs

/-- Stable sort, descending by `key`. -/
def sortDescBy (key : α → Time) (l : List α) : List α :=
  l.foldr (insertDescBy key) []

lemma insertDescBy_perm (key : α → Time) (a : α) (l : List α) :
    List.Perm (insertDescBy key a l) (a :: l) := by
  induction l with
  | nil => rfl
  | cons x xs ih =>
    by_cases h : key a < key x
    · simp only [insertDescBy, if_pos h]
      exact ((ih.cons x).trans (List.Perm.swap a x xs))
    · simp [insertDescBy, if_neg h]

lemma sortDescBy_perm (key : α → Time) (l : List α) :
    List.Perm (sortDescBy key l) l := by
  induction l with
  | nil => rfl
  | cons x xs ih =>
    exact (insertDescBy_perm key x (sortDescBy key xs)).trans (ih.cons x)

lemma sortDescBy_length (key : α → Time) (l : List α) :
    (sortDescBy key l).length = l.length :=
  (sortDescBy_perm key l).length_eq

/-- `filtered.sort(key=lambda r: r.start_utc, reverse=True)`
(src/repository.py line 99). -/
def sortByStartDesc (l : List PipelineInfo) : List PipelineInfo :=
  sortDescBy (fun r => r.start_utc) l

/-- `JsonlPipelineRepository.get_pipeline_info` (src/repository.py lines
95-103): read, filter, sort newest-first, then slice
`filtered[offset:offset+limit]` (or `filtered[offset:]` without a limit). -/
def get_pipeline_info (fs : FileState) (f : Filters) (limit : Option Nat)
    (offset : Nat) : Except PyErr (List PipelineInfo) :=
  (read_all fs).map (fun data =>
    let filtered := sortByStartDesc (apply_filters f data)
    match limit with
    | some l => (filtered.drop offset).take l
    | none => filtered.drop offset)

/-- `JsonlPipelineRepository.count_pipeline_info` (src/repository.py lines
105-108). -/
def count_pipeline_info (fs : FileState) (f : Filters) : Except PyErr Nat :=
  (read_all fs).map (fun data => (apply_filters f data).length)

/-- `JsonlPipelineRepository.get_pipeline_info_by_date_code`
(src/repository.py lines 171-176): linear scan, first match. -/
def get_pipeline_info_by_date_code (fs : FileState) (dc : String) :
    Except PyErr (Option PipelineInfo) :=
  (read_all fs).map (fun data => data.find? (fun r => r.date_code == dc))

/-- The list of records a query call returns (empty if the read raised). -/
def queryList (fs : FileState) (f : Filters) (limit : Option Nat)
    (offset : Nat) : List PipelineInfo :=
  match get_pipeline_info fs f limit offset with
  | .ok l => l
  | .error _ => []

lemma pages_take_mul (s : List α) (L : Nat) :
    ∀ k, ((List.range k).flatMap fun i => (s.drop (i * L)).take L)
      = s.take (k * L) := by
  intro k
  induction k with
  | zero => simp
  | succ k ih =>
    rw [List.range_succ, List.flatMap_append, ih, Nat.succ_mul,
      List.take_add]
    simp

lemma pages_concat (s : List α) (L k : Nat) (h : s.length ≤ k * L) :
    ((List.range k).flatMap fun i => (s.drop (i * L)).take L) = s := by
  rw [pages_take_mul, List.take_of_length_le h]

/-- C2: with matching-set size `N` (as reported by the count operation),
`limit L ≥ 1` and `offset O` return exactly `min L (N - O)` records
(`Nat` subtraction is `max 0 (N - O)`), and concatenating the pages at
offsets `0, L, 2L, ...` — enough pages to cover `N` — reproduces the full
unpaginated result. -/
theorem c2_pagination_exact :
    ∀ (fs : FileState) (f : Filters) (L O k N : Nat)
      (data : List PipelineInfo),
      read_all fs = .ok data →
      count_pipeline_info fs f = .ok N →
      1 ≤ L →
      (queryList fs f (some L) O).length = min L (N - O) ∧
      (N ≤ k * L →
        ((List.range k).flatMap fun i => queryList fs f (some L) (i * L))
          = queryList fs f none 0) := by
  intro fs f L O k N data hread hcount _
  have hq : ∀ lim off, queryList fs f lim off =
      (match lim with
       | some l => ((sortByStartDesc (apply_filters f data)).drop off).take l
       | none => (sortByStartDesc (apply_filters f data)).drop off) := by
    intro lim off
    simp [queryList, get_pipeline_info, hread, Except.map]
  have hN : N = (apply_filters f data).length := by
    simpa [count_pipeline_info, hread, Except.map] using hcount.symm
  have hlen : (sortByStartDesc (apply_filters f data)).length = N := by
    rw [sortByStartDesc, sortDescBy_length, hN]
  constructor
  · rw [hq]
    simp [List.length_take, List.length_drop, hlen, Nat.min_comm]
  · intro hcover
    have : ∀ i : Nat, queryList fs f (some L) (i * L) =
        ((sortByStartDesc (apply_filters f data)).drop (i * L)).take L := by
      intro i; rw [hq]
    calc ((List.range k).flatMap fun i => queryList fs f (some L) (i * L))
        = ((List.range k).flatMap fun i =>
            ((sortByStartDesc (apply_filters f data)).drop (i * L)).take L) := by
          apply List.flatMap_congr
          intro i _
          rw [hq]
      _ = sortByStartDesc (apply_filters f data) :=
          pages_concat _ L k (by rw [hlen]; exact hcover)
      _ = queryList fs f none 0 := by rw [hq]; simp

/-- A concrete valid record, parameterized by a timestamp/identifier seed
(used as witness data). -/
def sampleRec (n : Nat) : PipelineInfo :=
  { start_local := n, end_local := n + 1, start_utc := n, end_utc := n + 1,
    elapsed_seconds := 10, elapsed_human := "10s",
    output_file := "/apps/data/pipeline/sales/out.data", rowcount := 5,
    log_file := "/apps/data/pipeline/logs/sales-1.log", pid := 7,
    date_code := toString n,
    pipeline_name := some "sales", script_name := some "s.py",
    pipeline_type := some "batch", environment := some "prod" }

/-- C2 witness store: three valid serialized records. -/
def dataC2 : List PipelineInfo := [sampleRec 1, sampleRec 2, sampleRec 3]

def fsC2 : FileState :=
  some [Line.obj (serialize_record (sampleRec 1)),
        Line.obj (serialize_record (sampleRec 2)),
        Line.obj (serialize_record (sampleRec 3))]

/-- C2 witness: with three matching records, `limit 2, offset 1` returns
`min 2 (3 - 1)` records and two pages of size 2 concatenate to the full
result. -/
theorem c2_pagination_exact_witness :
    (queryList fsC2 noFilters (some 2) 1).length = min 2 (3 - 1) ∧
    ((List.range 2).flatMap fun i => queryList fsC2 noFilters (some 2) (i * 2))
      = queryList fsC2 noFilters none 0 :=
  ⟨(c2_pagination_exact fsC2 noFilters 2 1 2 3 dataC2 rfl rfl
      (by decide)).1,
   (c2_pagination_exact fsC2 noFilters 2 1 2 3 dataC2 rfl rfl
      (by decide)).2 (by decide)⟩

lemma jLookup_serialize_pipeline_name (r : PipelineInfo) :
    jLookup (serialize_record r) "pipeline_name"
      = some (jOfOptStr r.pipeline_name) := rfl

lemma parseLine_serialize (r : PipelineInfo) :
    parseLine (Line.obj (serialize_record r)) = .ok (some r) := by
  simp [parseLine, parseObj, jLookup_serialize_pipeline_name,
    mkPipelineInfo_serialize]

lemma read_all_lines_append (xs : List Line) (l : Line) (r : PipelineInfo)
    (hl : parseLine l = .ok (some r)) :
    ∀ ds, read_all_lines xs = .ok ds →
      read_all_lines (xs ++ [l]) = .ok (ds ++ [r]) := by
  induction xs with
  | nil =>
    intro ds h
    simp only [read_all_lines] at h
    cases h
    simp [read_all_lines, hl, Except.map]
  | cons x xs ih =>
    intro ds h
    simp only [read_all_lines, List.cons_append] at h ⊢
    cases hx : parseLine x with
    | error e =>
      simp only [hx] at h
      exact Except.noConfusion h
    | ok o =>
      cases o with
      | none =>
        simp only [hx] at h
        exact ih ds h
      | some r0 =>
        simp only [hx] at h
        cases hrest : read_all_lines xs with
        | error e => rw [hrest] at h; simp [Except.map] at h
        | ok ds0 =>
          rw [hrest] at h
          simp only [Except.map] at h
          cases h
          have hih := ih ds0 hrest
          simp [hih, Except.map]

/-- C5: appending any valid record via the flat-file insert and re-reading
the store recovers exactly the prior records followed by the inserted
record, equal field for field (timestamps are compared as the datetimes
they denote, i.e. modulo ISO string formatting). -/
theorem c5_insert_read_roundtrip :
    ∀ (fs : FileState) (data : List PipelineInfo) (r : PipelineInfo),
      read_all fs = .ok data →
      read_all (insert_pipeline_info fs r) = .ok (data ++ [r]) := by
  intro fs data r hread
  cases fs with
  | none =>
    simp only [read_all] at hread
    cases hread
    simp only [insert_pipeline_info, Option.getD, List.nil_append, read_all]
    rw [show ([Line.obj (serialize_record r)] : List Line)
        = [] ++ [Line.obj (serialize_record r)] by simp]
    exact read_all_lines_append [] _ r (parseLine_serialize r) [] rfl
  | some lines =>
    simp only [read_all] at hread
    simp only [insert_pipeline_info, Option.getD, read_all]
    exact read_all_lines_append lines _ r (parseLine_serialize r) data hread

/-- C5 witness: inserting `sampleRec 2` into a store already holding
`sampleRec 1` and re-reading yields both records exactly. -/
theorem c5_insert_read_roundtrip_witness :
    read_all (insert_pipeline_info
        (some [Line.obj (serialize_record (sampleRec 1))]) (sampleRec 2))
      = .ok ([sampleRec 1] ++ [sampleRec 2]) :=
  c5_insert_read_roundtrip (some [Line.obj (serialize_record (sampleRec 1))])
    [sampleRec 1] (sampleRec 2) rfl

/-- A JSON-object line missing both the `pipeline_name` key and a usable
string in `output_file` (an integer instead): `_infer_pipeline_name`
evaluates `'/pipeline/' in 123` and raises `TypeError`. -/
def crashObj : JsonObj :=
  [("start_local", JValue.timeStr 1), ("end_local", JValue.timeStr 2),
   ("start_utc", JValue.timeStr 1), ("end_utc", JValue.timeStr 2),
   ("elapsed_seconds", JValue.rat 1), ("elapsed_human", JValue.str "1s"),
   ("output_file", JValue.int 123), ("rowcount", JValue.int 1),
   ("log_file", JValue.str "/x/log"), ("pid", JValue.int 1),
   ("date_code", JValue.str "d")]

/-- A JSON-object line that parses but fails Pydantic validation (required
fields missing): caught as `ValueError` and skipped. -/
def invalidObj : JsonObj :=
  [("foo", JValue.int 1), ("pipeline_name", JValue.str "x")]

/-- C7 evaluation: (1) a valid-JSON non-object line among five valid lines
makes the read raise an uncaught `TypeError` instead of skipping the line;
(2) so does an object line whose `pipeline_name` must be inferred while
`output_file` holds a truthy non-string; (3) a line that fails JSON parsing
or Pydantic validation IS skipped: five lines with one unparseable line
yield the four valid records; (4) one unparseable line among five valid
lines yields five records, not four. -/
theorem c7_malformed_line_evaluation :
    read_all (some [Line.obj (serialize_record (sampleRec 1)),
        Line.obj (serialize_record (sampleRec 2)),
        Line.obj (serialize_record (sampleRec 3)),
        Line.obj (serialize_record (sampleRec 4)),
        Line.obj (serialize_record (sampleRec 5)), Line.nonObjJson])
      = .error .typeError
    ∧ read_all (some [Line.obj (serialize_record (sampleRec 1)),
        Line.obj crashObj]) = .error .typeError
    ∧ read_all (some [Line.obj (serialize_record (sampleRec 1)),
        Line.badJson, Line.obj invalidObj,
        Line.obj (serialize_record (sampleRec 2)),
        Line.obj (serialize_record (sampleRec 3)),
        Line.obj (serialize_record (sampleRec 4))])
      = .ok [sampleRec 1, sampleRec 2, sampleRec 3, sampleRec 4]
    ∧ read_all (some [Line.obj (serialize_record (sampleRec 1)),
        Line.obj (serialize_record (sampleRec 2)),
        Line.obj (serialize_record (sampleRec 3)),
        Line.obj (serialize_record (sampleRec 4)),
        Line.obj (serialize_record (sampleRec 5)), Line.badJson])
      = .ok [sampleRec 1, sampleRec 2, sampleRec 3, sampleRec 4,
          sampleRec 5] :=
  ⟨rfl, rfl, rfl, rfl⟩

/-! ## Summary aggregation -/

/-- The four-field grouping key of `get_pipelines_summary`
(src/repository.py line 116). -/
abbrev GroupKey := Option String × Option String × Option String × Option String

def recKey (r : PipelineInfo) : GroupKey :=
  (r.pipeline_name, r.script_name, r.pipeline_type, r.environment)

/-- The summary projection, embedded from `src/models.py`
(`class PipelineSummary`). -/
structure PipelineSummary where
  pipeline_name : Option String
  script_name : Option String
  pipeline_type : Option String
  environment : Option String
  total_runs : Nat
  last_run : Option Time
  avg_duration : Option Rat
  avg_rowcount : Option Rat
deriving DecidableEq, Repr

/-- One `groups[key].append(record)` step of the `defaultdict(list)`
grouping loop: append to the existing entry for the key, else add a new
entry at the end (Python dicts preserve insertion order). -/
def addGroup : List (GroupKey × List PipelineInfo) → GroupKey →
    PipelineInfo → List (GroupKey × List PipelineInfo)
  | [], k, r => [(k, [r])]
  | (k0, l) :: gs, k, r =>
    if k0 = k then (k0, l ++ [r]) :: gs else (k0, l) :: addGroup gs k r

/-- The grouping loop of `get_pipelines_summary`
(src/repository.py lines 114-117). -/
def groupRecords (data : List PipelineInfo) :
    List (GroupKey × List PipelineInfo) :=
  data.foldl (fun gs r => addGroup gs (recKey r) r) []

def lookupGroup : List (GroupKey × List PipelineInfo) → GroupKey →
    Option (List PipelineInfo)
  | [], _ => none
  | (k0, l) :: gs, k => if k0 = k then some l else lookupGroup gs k

/-- Python `max(records, key=lambda r: r.start_utc)`: scan keeping the
current record unless a strictly later one appears (first maximum wins). -/
def pyMaxByStart (r0 : PipelineInfo) (rest : List PipelineInfo) :
    PipelineInfo :=
  rest.foldl (fun acc r => if acc.start_utc < r.start_utc then r else acc) r0

/-- The per-group statistics of `get_pipelines_summary`
(src/repository.py lines 120-141): count, latest `start_utc`, mean of the
strictly positive `elapsed_seconds` values (else null), mean of the
strictly positive `rowcount` values (else null).  The `[]` case is
unreachable: the loop skips empty groups (`if not records: continue`). -/
def summarizeGroup (k : GroupKey) (recs : List PipelineInfo) :
    PipelineSummary :=
  match recs with
  | [] =>
    { pipeline_name := k.1, script_name := k.2.1, pipeline_type := k.2.2.1,
      environment := k.2.2.2, total_runs := 0, last_run := none,
      avg_duration := none, avg_rowcount := none }
  | r0 :: rest =>
    let durations := ((r0 :: rest).filter
      (fun r => decide (0 < r.elapsed_seconds))).map
        (fun r => r.elapsed_seconds)
    let rowcounts := ((r0 :: rest).filter
      (fun r => decide (0 < r.rowcount))).map (fun r => (r.rowcount : Rat))
    { pipeline_name := k.1, script_name := k.2.1, pipeline_type := k.2.2.1,
      environment := k.2.2.2,
      total_runs := (r0 :: rest).length,
      last_run := some (pyMaxByStart r0 rest).start_utc,
      avg_duration :=
        if durations = [] then none
        else some (durations.sum / (durations.length : Rat)),
      avg_rowcount :=
        if rowcounts = [] then none
        else some (rowcounts.sum / (rowcounts.length : Rat)) }

/-- `JsonlPipelineRepository.get_pipelines_summary` (src/repository.py
lines 110-146): read, group, summarize each nonempty group, sort by
`last_run` descending (`s.last_run or ""` makes a missing value sort last;
here it never is missing). -/
def get_pipelines_summary (fs : FileState) :
    Except PyErr (List PipelineSummary) :=
  (read_all fs).map (fun data =>
    sortDescBy (fun s => s.last_run.getD 0)
      ((groupRecords data).filterMap (fun g =>
        if g.2 = [] then none else some (summarizeGroup g.1 g.2))))

lemma lookupGroup_addGroup (gs : List (GroupKey × List PipelineInfo))
    (k : GroupKey) (r : PipelineInfo) (k' : GroupKey) :
    lookupGroup (addGroup gs k r) k' =
      if k = k' then some ((lookupGroup gs k').getD [] ++ [r])
      else lookupGroup gs k' := by
  induction gs with
  | nil =>
    by_cases h : k = k' <;> simp [addGroup, lookupGroup, h]
  | cons g gs ih =>
    rcases g with ⟨k0, l⟩
    by_cases h0 : k0 = k
    · subst h0
      by_cases h : k0 = k' <;> simp [addGroup, lookupGroup, h]
    · by_cases h1 : k0 = k'
      · subst h1
        have hk : ¬ k = k0 := fun hh => h0 hh.symm
        simp [addGroup, lookupGroup, h0, hk]
      · simp [addGroup, lookupGroup, h0, h1, ih]

/-- How grouping and filtering combine when folding more data in. -/
def combineG : Option (List PipelineInfo) → List PipelineInfo →
    Option (List PipelineInfo)
  | none, fl => if fl = [] then none else some fl
  | some l, fl => some (l ++ fl)

lemma lookupGroup_foldl (data : List PipelineInfo) :
    ∀ (gs : List (GroupKey × List PipelineInfo)) (k : GroupKey),
      lookupGroup (data.foldl (fun gs r => addGroup gs (recKey r) r) gs) k
        = combineG (lookupGroup gs k)
            (data.filter (fun r => decide (recKey r = k))) := by
  induction data with
  | nil =>
    intro gs k
    cases h : lookupGroup gs k <;> simp [combineG, h]
  | cons r data ih =>
    intro gs k
    rw [List.foldl_cons, ih, lookupGroup_addGroup]
    by_cases hk : recKey r = k
    · rw [if_pos hk, List.filter_cons, if_pos (by simp [hk])]
      cases h : lookupGroup gs k <;> simp [combineG, h]
    · rw [if_neg hk, List.filter_cons, if_neg (by simp [hk])]

lemma lookupGroup_mem (gs : List (GroupKey × List PipelineInfo))
    (k : GroupKey) (l : List PipelineInfo) (h : lookupGroup gs k = some l) :
    (k, l) ∈ gs := by
  induction gs with
  | nil => simp [lookupGroup] at h
  | cons g gs ih =>
    rcases g with ⟨k0, l0⟩
    by_cases h0 : k0 = k
    · subst h0
      simp [lookupGroup] at h
      simp [h]
    · simp only [lookupGroup, if_neg h0] at h
      exact List.mem_cons_of_mem _ (ih h)

lemma groupRecords_lookup (data : List PipelineInfo) (k : GroupKey)
    (h : data.filter (fun r => decide (recKey r = k)) ≠ []) :
    lookupGroup (groupRecords data) k
      = some (data.filter (fun r => decide (recKey r = k))) := by
  rw [groupRecords, lookupGroup_foldl data [] k]
  simp only [lookupGroup, combineG]
  rw [if_neg h]

lemma pyMaxByStart_spec (rest : List PipelineInfo) :
    ∀ r0 : PipelineInfo,
      (pyMaxByStart r0 rest = r0 ∨ pyMaxByStart r0 rest ∈ rest) ∧
      r0.start_utc ≤ (pyMaxByStart r0 rest).start_utc ∧
      ∀ r ∈ rest, r.start_utc ≤ (pyMaxByStart r0 rest).start_utc := by
  induction rest with
  | nil => intro r0; exact ⟨Or.inl rfl, le_refl _, by simp⟩
  | cons x xs ih =>
    intro r0
    have hstep : pyMaxByStart r0 (x :: xs)
        = pyMaxByStart (if r0.start_utc < x.start_utc then x else r0) xs := by
      simp [pyMaxByStart, List.foldl_cons]
    obtain ⟨hmem, hle, hall⟩ :=
      ih (if r0.start_utc < x.start_utc then x else r0)
    refine ⟨?_, ?_, ?_⟩
    · rw [hstep]
      rcases hmem with hm | hm
      · rw [hm]
        by_cases hc : r0.start_utc < x.start_utc
        · rw [if_pos hc]; exact Or.inr (List.mem_cons_self x xs)
        · rw [if_neg hc]; exact Or.inl rfl
      · exact Or.inr (List.mem_cons_of_mem _ hm)
    · rw [hstep]
      refine le_trans ?_ hle
      by_cases hc : r0.start_utc < x.start_utc
      · rw [if_pos hc]; exact le_of_lt hc
      · rw [if_neg hc]
    · intro r hr
      rw [hstep]
      rcases List.mem_cons.mp hr with hr | hr
      · rw [hr]
        refine le_trans ?_ hle
        by_cases hc : r0.start_utc < x.start_utc
        · rw [if_pos hc]
        · rw [if_neg hc]; exact le_of_not_lt hc
      · exact hall r hr

/-- A concrete record for the summary instance: seeded timestamp,
elapsed seconds and rowcount, all sharing one grouping key. -/
def sumRec (n : Nat) (es : Rat) (rc : Int) : PipelineInfo :=
  { start_local := n, end_local := n, start_utc := n, end_utc := n,
    elapsed_seconds := es, elapsed_human := "", output_file := "/o",
    rowcount := rc, log_file := "/l", pid := 1, date_code := toString n,
    pipeline_name := some "p", script_name := some "s",
    pipeline_type := some "batch", environment := some "prod" }

def gC6 : List PipelineInfo :=
  [sumRec 1 10 5, sumRec 2 20 15, sumRec 3 0 0]

def fsC6 : FileState :=
  some [Line.obj (serialize_record (sumRec 1 10 5)),
        Line.obj (serialize_record (sumRec 2 20 15)),
        Line.obj (serialize_record (sumRec 3 0 0))]

def kC6 : GroupKey := (some "p", some "s", some "batch", some "prod")

/-- The summary of `gC6` with the averages left unevaluated, exactly as
`summarizeGroup` produces them. -/
def sumC6raw : PipelineSummary :=
  { pipeline_name := some "p", script_name := some "s",
    pipeline_type := some "batch", environment := some "prod",
    total_runs := 3, last_run := some 3,
    avg_duration := some (List.sum [(10 : Rat), 20] / ((2 : Nat) : Rat)),
    avg_rowcount := some (List.sum [((5 : Int) : Rat), ((15 : Int) : Rat)] /
      ((2 : Nat) : Rat)) }

/-- C6: every group of stored records sharing a grouping key contributes
one summary whose `total_runs` is the group's count, whose `last_run` is
the maximum `start_utc` of the group, and whose `avg_duration` /
`avg_rowcount` are the means over the strictly positive `elapsed_seconds`
/ `rowcount` values (null when there are none); concretely, three records
with `elapsed_seconds` 10, 20, 0 and `rowcount` 5, 15, 0 yield
`total_runs = 3`, `last_run` the latest start, `avg_duration = 15` and
`avg_rowcount = 10`. -/
theorem c6_summary_aggregates :
    (∀ (fs : FileState) (data : List PipelineInfo) (k : GroupKey)
        (G : List PipelineInfo),
      read_all fs = .ok data →
      G = data.filter (fun r => decide (recKey r = k)) →
      G ≠ [] →
      ∃ sums s, get_pipelines_summary fs = .ok sums ∧ s ∈ sums ∧
        (s.pipeline_name, s.script_name, s.pipeline_type, s.environment) = k ∧
        s.total_runs = G.length ∧
        (∃ t, s.last_run = some t ∧ t ∈ G.map (fun r => r.start_utc) ∧
          ∀ u ∈ G.map (fun r => r.start_utc), u ≤ t) ∧
        s.avg_duration =
          (if (G.filter (fun r => decide (0 < r.elapsed_seconds))).map
                (fun r => r.elapsed_seconds) = [] then none
           else some
            (((G.filter (fun r => decide (0 < r.elapsed_seconds))).map
                (fun r => r.elapsed_seconds)).sum /
              ((((G.filter (fun r => decide (0 < r.elapsed_seconds))).map
                (fun r => r.elapsed_seconds)).length : Nat) : Rat))) ∧
        s.avg_rowcount =
          (if (G.filter (fun r => decide (0 < r.rowcount))).map
                (fun r => (r.rowcount : Rat)) = [] then none
           else some
            (((G.filter (fun r => decide (0 < r.rowcount))).map
                (fun r => (r.rowcount : Rat))).sum /
              ((((G.filter (fun r => decide (0 < r.rowcount))).map
                (fun r => (r.rowcount : Rat))).length : Nat) : Rat)))) ∧
    get_pipelines_summary fsC6 =
      .ok [{ pipeline_name := some "p", script_name := some "s",
             pipeline_type := some "batch", environment := some "prod",
             total_runs := 3, last_run := some 3,
             avg_duration := some 15, avg_rowcount := some 10 }] := by
  constructor
  · intro fs data k G hread hGdef hGne
    have hlook : lookupGroup (groupRecords data) k
        = some (data.filter (fun r => decide (recKey r = k))) :=
      groupRecords_lookup data k (by rw [← hGdef]; exact hGne)
    rw [← hGdef] at hlook
    have hmem : (k, G) ∈ groupRecords data := lookupGroup_mem _ _ _ hlook
    have hsums : get_pipelines_summary fs =
        .ok (sortDescBy (fun s => s.last_run.getD 0)
          ((groupRecords data).filterMap (fun g =>
            if g.2 = [] then none else some (summarizeGroup g.1 g.2)))) := by
      simp [get_pipelines_summary, hread, Except.map]
    refine ⟨_, summarizeGroup k G, hsums, ?_, ?_⟩
    · have hraw : summarizeGroup k G ∈
          (groupRecords data).filterMap (fun g =>
            if g.2 = [] then none else some (summarizeGroup g.1 g.2)) := by
        refine List.mem_filterMap.mpr ⟨(k, G), hmem, ?_⟩
        rw [if_neg hGne]
      exact ((sortDescBy_perm _ _).mem_iff).mpr hraw
    · cases G with
      | nil => exact absurd rfl hGne
      | cons r0 rest =>
        obtain ⟨hmax, hle0, hall⟩ := pyMaxByStart_spec rest r0
        refine ⟨rfl, rfl, ?_, rfl, rfl⟩
        refine ⟨(pyMaxByStart r0 rest).start_utc, rfl, ?_, ?_⟩
        · refine List.mem_map.mpr ⟨pyMaxByStart r0 rest, ?_, rfl⟩
          rcases hmax with hm | hm
          · rw [hm]; exact List.mem_cons_self r0 rest
          · exact List.mem_cons_of_mem _ hm
        · intro u hu
          obtain ⟨r, hr, hru⟩ := List.mem_map.mp hu
          rw [← hru]
          rcases List.mem_cons.mp hr with hr | hr
          · rw [hr]; exact hle0
          · exact hall r hr
  · have h1 : get_pipelines_summary fsC6 = .ok [sumC6raw] := rfl
    rw [h1]
    norm_num [sumC6raw, List.sum_cons, List.sum_nil]

/-- C6 witness: the general aggregation statement applied to the concrete
three-record store. -/
theorem c6_summary_aggregates_witness :
    ∃ sums s, get_pipelines_summary fsC6 = .ok sums ∧ s ∈ sums ∧
      (s.pipeline_name, s.script_name, s.pipeline_type, s.environment)
        = kC6 ∧
      s.total_runs = gC6.length ∧
      (∃ t, s.last_run = some t ∧ t ∈ gC6.map (fun r => r.start_utc) ∧
        ∀ u ∈ gC6.map (fun r => r.start_utc), u ≤ t) ∧
      s.avg_duration =
        (if (gC6.filter (fun r => decide (0 < r.elapsed_seconds))).map
              (fun r => r.elapsed_seconds) = [] then none
         else some
          (((gC6.filter (fun r => decide (0 < r.elapsed_seconds))).map
              (fun r => r.elapsed_seconds)).sum /
            ((((gC6.filter (fun r => decide (0 < r.elapsed_seconds))).map
              (fun r => r.elapsed_seconds)).length : Nat) : Rat))) ∧
      s.avg_rowcount =
        (if (gC6.filter (fun r => decide (0 < r.rowcount))).map
              (fun r => (r.rowcount : Rat)) = [] then none
         else some
          (((gC6.filter (fun r => decide (0 < r.rowcount))).map
              (fun r => (r.rowcount : Rat))).sum /
            ((((gC6.filter (fun r => decide (0 < r.rowcount))).map
              (fun r => (r.rowcount : Rat))).length : Nat) : Rat))) :=
  c6_summary_aggregates.1 fsC6 gC6 kC6 gC6 rfl rfl (by decide)

/-! ## Artifact streaming (`GET /pipelines/archived/{date_code}`) -/

/-- Client-visible outcome of the lookup-and-stream endpoint: 404, 403,
500, or a streamed file with its display filename. -/
inductive StreamOutcome where
  | notFound
  | forbidden
  | internalError
  | ok (filename : String)
deriving DecidableEq, Repr

/-- `get_archived_file` exactly as the code under `src/` behaves
(src/main.py lines 151-242): an absent record gives 404 (line 165 short
circuits on `not record`), but for any found record the handler evaluates
`record.archived_file` — and `PipelineInfo` in src/models.py declares no
`archived_file` field, so Pydantic raises `AttributeError`, which falls
through to the generic `except Exception` handler (line 240): an internal
error for every found record, regardless of the stored data. -/
def get_archived_file_code (fs : FileState) (dc : String) : StreamOutcome :=
  match get_pipeline_info_by_date_code fs dc with
  | .error _ => .internalError
  | .ok none => .notFound
  | .ok (some _) => .internalError

/-- C3 evaluation: with a store holding one valid record (date_code `1`),
looking up that record yields an internal error — not the specified
not-found — while an absent record yields not-found.  The claim's
`record with no archived_file value yields not-found` is therefore
unreachable in the code as written. -/
theorem c3_archived_not_found_evaluation :
    get_archived_file_code (insert_pipeline_info none (sampleRec 1)) "1"
      = .internalError
    ∧ get_archived_file_code (insert_pipeline_info none (sampleRec 1))
        "missing" = .notFound
    ∧ StreamOutcome.internalError ≠ StreamOutcome.notFound :=
  ⟨rfl, rfl, by decide⟩

/-- Modelled from the spec: the record's `archived_file` field (spec §3,
"`archived_file` (optional path string …; absent for older records)") is
missing from `PipelineInfo` in src/models.py, so the streaming handler's
record is modelled here as a date_code plus that spec-described field. -/
structure ArchivedRecord where
  date_code : String
  archived_file : Option String
deriving DecidableEq, Repr

/-- First record whose `date_code` matches (the repository lookup,
src/repository.py lines 171-176). -/
def lookupArchived (store : List ArchivedRecord) (dc : String) :
    Option ArchivedRecord :=
  store.find? (fun r => r.date_code == dc)

/-- `Path(p).name`: the final path component.  (Pathlib's normalization of
trailing slashes and duplicate separators is not exercised by any claim.) -/
def pathName (p : String) : String :=
  (strSplitOn p '/').getLastD ""

/-- POSIX `Path.is_absolute`. -/
def isAbsolutePath (p : String) : Bool :=
  strStartsWith p "/"

/-- `".." in str(file_path)`. -/
def containsDotDot (p : String) : Bool :=
  strContains p ".."

/-- The display-filename cleaning of src/main.py lines 186-191: strip a
trailing `.tmp`; the `elif` arm for `.gz.tmp` is dead code since any such
name already ends in `.tmp`. -/
def clean_filename (n : String) : String :=
  if strEndsWith n ".tmp" then strDropRight n 4
  else if strEndsWith n ".gz.tmp" then strDropRight n 8 ++ ".gz"
  else n

/-- Modelled from the spec: the streaming handler's logic (src/main.py
lines 162-237) re-embedded over `ArchivedRecord`, i.e. over a record model
that has the `archived_file` field the spec describes.  `disk` is the set
of paths for which `Path.is_file()` is true.  The source order is kept:
truthiness check (absent/empty path → 404), existence check (→ 404), THEN
the traversal/absoluteness check (→ 403), then the cleaned filename. -/
def get_archived_file_model (store : List ArchivedRecord)
    (disk : List String) (dc : String) : StreamOutcome :=
  match lookupArchived store dc with
  | none => .notFound
  | some rec =>
    match rec.archived_file with
    | none => .notFound
    | some p =>
      if p = "" then .notFound
      else if !(disk.contains p) then .notFound
      else if containsDotDot p || !(isAbsolutePath p) then .forbidden
      else .ok (clean_filename (pathName p))

/-- C4 counterexample: a record whose `archived_file` is the relative path
`foo.dat` that does not exist on disk yields not-found, not the forbidden
outcome the claim requires for every relative path — the existence check
runs before the absoluteness check. -/
theorem c4_relative_path_counterexample :
    get_archived_file_model
        [{ date_code := "d1", archived_file := some "foo.dat" }] [] "d1"
      = .notFound
    ∧ StreamOutcome.notFound ≠ StreamOutcome.forbidden :=
  ⟨rfl, by decide⟩

/-- C4 amended: a record whose `archived_file` is a non-empty relative
path that DOES exist as a file yields forbidden, an outcome distinct from
not-found; a relative path missing from disk yields not-found instead,
because the existence check precedes the path check. -/
theorem c4_relative_existing_path_forbidden :
    ∀ (store : List ArchivedRecord) (disk : List String) (dc p : String)
      (rec : ArchivedRecord),
      lookupArchived store dc = some rec →
      rec.archived_file = some p →
      p ≠ "" →
      disk.contains p = true →
      isAbsolutePath p = false →
      get_archived_file_model store disk dc = .forbidden ∧
      StreamOutcome.forbidden ≠ StreamOutcome.notFound := by
  intro store disk dc p rec h1 h2 hne hdisk habs
  refine ⟨?_, by decide⟩
  have hmem : p ∈ disk := by simpa using hdisk
  simp [get_archived_file_model, h1, h2, hne, hdisk, habs, hmem]

/-- C4 witness: a relative path present on disk is rejected as forbidden. -/
theorem c4_relative_existing_path_forbidden_witness :
    get_archived_file_model
        [{ date_code := "d1", archived_file := some "rel/x.dat" }]
        ["rel/x.dat"] "d1" = .forbidden ∧
      StreamOutcome.forbidden ≠ StreamOutcome.notFound :=
  c4_relative_existing_path_forbidden
    [{ date_code := "d1", archived_file := some "rel/x.dat" }]
    ["rel/x.dat"] "d1" "rel/x.dat"
    { date_code := "d1", archived_file := some "rel/x.dat" }
    rfl rfl (by decide) (by decide) (by decide)

/-- C9: whenever the streaming operation serves a file, the display
filename is the cleaned basename of the stored path; a name ending in
`.tmp` loses exactly that suffix (so a combined `.gz.tmp` suffix is
reduced to `.gz`); concretely `foo.subconLot.gz.tmp` is displayed as
`foo.subconLot.gz` and `foo.dat.tmp` as `foo.dat`, end to end. -/
theorem c9_display_filename_cleaning :
    (∀ (store : List ArchivedRecord) (disk : List String) (dc fn : String),
      get_archived_file_model store disk dc = .ok fn →
      ∃ rec p, lookupArchived store dc = some rec ∧
        rec.archived_file = some p ∧
        fn = clean_filename (pathName p)) ∧
    (∀ n : String, strEndsWith n ".tmp" = true →
      clean_filename n = strDropRight n 4) ∧
    clean_filename "foo.subconLot.gz.tmp" = "foo.subconLot.gz" ∧
    clean_filename "foo.dat.tmp" = "foo.dat" ∧
    get_archived_file_model
        [{ date_code := "d2",
           archived_file := some "/a/b/foo.subconLot.gz.tmp" }]
        ["/a/b/foo.subconLot.gz.tmp"] "d2" = .ok "foo.subconLot.gz" ∧
    get_archived_file_model
        [{ date_code := "d3", archived_file := some "/a/foo.dat.tmp" }]
        ["/a/foo.dat.tmp"] "d3" = .ok "foo.dat" := by
  refine ⟨?_, ?_, rfl, rfl, rfl, rfl⟩
  · intro store disk dc fn h
    cases hl : lookupArchived store dc with
    | none => simp [get_archived_file_model, hl] at h
    | some rec =>
      cases ha : rec.archived_file with
      | none => simp [get_archived_file_model, hl, ha] at h
      | some p =>
        refine ⟨rec, p, rfl, ha, ?_⟩
        simp only [get_archived_file_model, hl, ha] at h
        split_ifs at h
        all_goals simp at h
        exact h.symm
  · intro n h
    simp [clean_filename, h]

/-! ## The query endpoint wrapper (`GET /get_pipeline_info`) -/

/-- The response model of `src/models.py` (`class PipelineInfoResponse`). -/
structure PipelineInfoResponse where
  total : Nat
  count : Nat
  results : List PipelineInfo
  pipelines : List String
deriving DecidableEq, Repr

/-- Client-visible outcome of an API call: a payload, 400, 404 or 500. -/
inductive ApiResult (α : Type) where
  | ok (a : α)
  | badRequest
  | notFound
  | internalError
deriving DecidableEq, Repr

/-- `list(set(r.pipeline_name for r in data if r.pipeline_name))`
(src/main.py line 120): the distinct truthy pipeline names of the returned
page.  Python's set iteration order is unspecified; first-occurrence order
is used here and no claim depends on it. -/
def uniquePipelines (data : List PipelineInfo) : List String :=
  (data.filterMap (fun r =>
    match r.pipeline_name with
    | some s => if s = "" then none else some s
    | none => none)).dedup

/-- The `get_pipeline_info` endpoint (src/main.py lines 65-134): pass
`limit=None, offset=0` when `all_data` is set, fetch the page and the
independent total count, and translate exceptions: the `ValueError → 400`
and `FileNotFoundError → 404` handlers (lines 128-131) are never reached
by the jsonl repository — it returns `[]` for a missing file instead of
raising — so the only reachable handler is `except Exception → 500`. -/
def api_get_pipeline_info (fs : FileState) (f : Filters) (limit : Nat)
    (offset : Nat) (all_data : Bool) : ApiResult PipelineInfoResponse :=
  match get_pipeline_info fs f (if all_data then none else some limit)
      (if all_data then 0 else offset) with
  | .error _ => .internalError
  | .ok data =>
    if all_data then
      .ok { total := data.length, count := data.length, results := data,
            pipelines := uniquePipelines data }
    else
      match count_pipeline_info fs f with
      | .error _ => .internalError
      | .ok n =>
        .ok { total := n, count := data.length, results := data,
              pipelines := uniquePipelines data }

/-- C8 counterexample: with the backing file absent, the query endpoint
reports a successful empty page — not the resource-absent outcome the
claim requires. -/
theorem c8_missing_store_counterexample :
    api_get_pipeline_info none noFilters 100 0 false
      = .ok { total := 0, count := 0, results := [], pipelines := [] }
    ∧ api_get_pipeline_info none noFilters 100 0 false
        ≠ ApiResult.notFound := by
  constructor
  · simp [api_get_pipeline_info, get_pipeline_info, count_pipeline_info,
      read_all, Except.map, apply_filters, sortByStartDesc, sortDescBy,
      uniquePipelines]
  · intro h
    rw [show api_get_pipeline_info none noFilters 100 0 false
        = .ok { total := 0, count := 0, results := [], pipelines := [] } by
      simp [api_get_pipeline_info, get_pipeline_info, count_pipeline_info,
        read_all, Except.map, apply_filters, sortByStartDesc, sortDescBy,
        uniquePipelines]] at h
    exact ApiResult.noConfusion h

/-- C8 amended: a nonexistent backing file is treated as an empty store —
queries succeed with an empty page and zero total for every filter /
pagination combination, count reports 0, the summary is empty, lookup by
`date_code` finds nothing, and consequently only the artifact-streaming
lookup reports not-found; no internal failure occurs. -/
theorem c8_missing_store_silent_empty :
    ∀ (f : Filters) (L O : Nat) (ad : Bool) (dc : String),
      api_get_pipeline_info none f L O ad
        = .ok { total := 0, count := 0, results := [], pipelines := [] }
      ∧ count_pipeline_info none f = .ok 0
      ∧ get_pipelines_summary none = .ok []
      ∧ get_pipeline_info_by_date_code none dc = .ok none
      ∧ get_archived_file_code none dc = .notFound := by
  intro f L O ad dc
  refine ⟨?_, rfl, rfl, rfl, rfl⟩
  cases ad <;>
    simp [api_get_pipeline_info, get_pipeline_info, count_pipeline_info,
      read_all, Except.map, apply_filters, sortByStartDesc, sortDescBy,
      uniquePipelines]

def storeC9 : List ArchivedRecord :=
  [{ date_code := "d2", archived_file := some "/a/b/foo.subconLot.gz.tmp" }]

/-- C9 witness: the derived-filename statement applied at a concrete
store, plus the `.tmp`-stripping statement at a concrete name. -/
theorem c9_display_filename_cleaning_witness :
    (∃ rec p,
      lookupArchived storeC9 "d2" = some rec ∧
      rec.archived_file = some p ∧
      "foo.subconLot.gz" = clean_filename (pathName p)) ∧
    clean_filename "abc.tmp" = strDropRight "abc.tmp" 4 :=
  ⟨c9_display_filename_cleaning.1 storeC9
      ["/a/b/foo.subconLot.gz.tmp"] "d2" "foo.subconLot.gz" rfl,
   c9_display_filename_cleaning.2.1 "abc.tmp" rfl⟩
